import Mathlib

set_option autoImplicit false

/-!
Shallow embedding of the RLHF notebook (`main.ipynb`): the dataset length
filter of `build_dataset`, the batch `collator`, the cell-13 training loop
(generation, trimming, decoding, scoring, reward extraction, PPO step), and
the cell-15 evaluation harness.  External collaborators (the policy model,
the reference model, the tokenizer and the sentiment pipeline) are
parameters of the definitions; machine tensors are lists of token ids.
-/

namespace RLHF

/-- One entry of a sentiment-pipeline output: the Python dict
`{"label": ..., "score": ...}`.  The numeric carrier is a type parameter;
no arithmetic is ever performed on scores, they are only moved. -/
structure LabelScore (α : Type) where
  label : String
  score : α
deriving DecidableEq

/-! ## Dataset builder: the length filter

`ds = ds.filter(lambda x: len(x["review"]) > 200, batched=False)` -/

/-- The length filter of `build_dataset`: keeps exactly the reviews whose
raw length is strictly greater than 200 characters. -/
def build_dataset_filter (corpus : List String) : List String :=
  corpus.filter (fun review => 200 < review.length)

/-! ## Batch collator

`def collator(data): return dict((key, [d[key] for d in data]) for key in data[0])`

A record is a Python dict, embedded as an association list with distinct
keys.  Python raises on `data[0]` for an empty list and on `d[key]` for a
missing key; both are embedded as `none`. -/

/-- Python dict lookup `d[key]` on a record: `none` models a `KeyError`. -/
def getKey {V : Type} (d : List (String × V)) (k : String) : Option V :=
  (d.find? (fun p => p.1 == k)).map Prod.snd

/-- The inner comprehension `[d[key] for d in data]`: a `KeyError` at any
record aborts the whole comprehension. -/
def collectKey {V : Type} : List (List (String × V)) → String → Option (List V)
  | [], _ => some []
  | d :: ds, k =>
    match getKey d k, collectKey ds k with
    | some v, some vs => some (v :: vs)
    | _, _ => none

/-- The generator `(key, [d[key] for d in data]) for key in data[0]` run over
the keys of the first record, building the output dict entry by entry. -/
def collectFields {V : Type} (data : List (List (String × V))) :
    List String → Option (List (String × List V))
  | [] => some []
  | k :: ks =>
    match collectKey data k, collectFields data ks with
    | some vs, some rest => some ((k, vs) :: rest)
    | _, _ => none

/-- The notebook's `collator`.  Iterating a Python dict (`for key in data[0]`)
yields its keys in order; indexing `data[0]` on an empty list raises
(`none`), as does any missing key. -/
def collator {V : Type} (data : List (List (String × V))) :
    Option (List (String × List V)) :=
  match data with
  | [] => none
  | d0 :: _ => collectFields data (d0.map Prod.fst)

/-! ### Collator lemmas -/

theorem collectKey_eq_some {V : Type} (k : String)
    (val : List (String × V) → String → V) :
    ∀ data : List (List (String × V)),
      (∀ d ∈ data, getKey d k = some (val d k)) →
      collectKey data k = some (data.map (fun d => val d k)) := by
  intro data
  induction data with
  | nil => intro _; rfl
  | cons d ds ih =>
    intro H
    have hd : getKey d k = some (val d k) := H d (List.mem_cons_self d ds)
    have hds : collectKey ds k = some (ds.map (fun x => val x k)) :=
      ih (fun x hx => H x (List.mem_cons_of_mem d hx))
    simp [collectKey, hd, hds]

theorem collectKey_eq_none {V : Type} (k : String) :
    ∀ data : List (List (String × V)), ∀ d ∈ data, getKey d k = none →
      collectKey data k = none := by
  intro data
  induction data with
  | nil => intro d hd; exact absurd hd (List.not_mem_nil d)
  | cons a as ih =>
    intro d hd hnone
    rcases List.mem_cons.1 hd with h | h
    · subst h; simp [collectKey, hnone]
    · have := ih d h hnone
      cases hga : getKey a k <;> simp [collectKey, hga, this]

theorem collectFields_eq_some {V : Type} (data : List (List (String × V)))
    (f : String → List V) :
    ∀ ks : List String, (∀ k ∈ ks, collectKey data k = some (f k)) →
      collectFields data ks = some (ks.map (fun k => (k, f k))) := by
  intro ks
  induction ks with
  | nil => intro _; rfl
  | cons k ks ih =>
    intro H
    have hk : collectKey data k = some (f k) := H k (List.mem_cons_self k ks)
    have hks : collectFields data ks = some (ks.map (fun x => (x, f x))) :=
      ih (fun x hx => H x (List.mem_cons_of_mem k hx))
    simp [collectFields, hk, hks]

theorem collectFields_eq_none {V : Type} (data : List (List (String × V))) :
    ∀ ks : List String, ∀ k ∈ ks, collectKey data k = none →
      collectFields data ks = none := by
  intro ks
  induction ks with
  | nil => intro k hk; exact absurd hk (List.not_mem_nil k)
  | cons a as ih =>
    intro k hk hnone
    rcases List.mem_cons.1 hk with h | h
    · subst h; simp [collectFields, hnone]
    · have := ih k h hnone
      cases hca : collectKey data a <;> simp [collectFields, hca, this]

/-! ## Training loop (cell-13)

The external collaborators appear as parameters: `gen` is
`ppo_trainer.generate` (returning the full output sequence), `decode` is
`tokenizer.decode`, `pipe`/`sentiment_pipe` is the reward model, `lens i`
is the `i`-th draw of `output_length_sampler`, and `step` is
`ppo_trainer.step`. -/

/-- Python slice `l[-n:]` on a list: the last `n` elements when `0 < n`;
the slice `[-0:]` is `[0:]`, the whole list. -/
def sliceLast {β : Type} (l : List β) (n : Nat) : List β :=
  if n = 0 then l else l.drop (l.length - n)

/-- A training batch as produced by the collator: the `input_ids` and
`query` fields, index-aligned lists over the batch's examples. -/
structure BatchData where
  input_ids : List (List Nat)
  query : List String

/-- The cell-13 generation loop unrolled from call index `i`: for each query
draw `gen_len = lens i`, call `ppo_trainer.generate(query)` with
`max_new_tokens = gen_len`, and keep `response.squeeze()[-gen_len:]`. -/
def genResponsesFrom (gen : List Nat → Nat → List Nat) (lens : Nat → Nat) :
    Nat → List (List Nat) → List (List Nat)
  | _, [] => []
  | i, q :: qs =>
    sliceLast (gen q (lens i)) (lens i) :: genResponsesFrom gen lens (i + 1) qs

/-- `response_tensors` of cell-13. -/
def genResponses (gen : List Nat → Nat → List Nat) (lens : Nat → Nat)
    (queries : List (List Nat)) : List (List Nat) :=
  genResponsesFrom gen lens 0 queries

/-- `texts = [q + r for q, r in zip(qs, rs)]`: this comprehension appears in
cell-13 (query texts with decoded responses) and twice in cell-15 (with the
before responses and with the after responses). -/
def buildTexts (queries responses : List String) : List String :=
  (queries.zip responses).map (fun p => p.1 ++ p.2)

/-- `output[1]["score"]`: Python list indexing at the fixed position 1,
raising when the pipeline output has fewer than two entries. -/
def extractReward {α : Type} (output : List (LabelScore α)) : Option α :=
  (output.get? 1).map LabelScore.score

/-- An Option-valued map over a list: a Python list comprehension whose body
may raise; the first raise aborts the whole comprehension. -/
def listMapOpt {β γ : Type} (f : β → Option γ) : List β → Option (List γ)
  | [] => some []
  | b :: bs =>
    match f b, listMapOpt f bs with
    | some c, some cs => some (c :: cs)
    | _, _ => none

/-- `rewards = [torch.tensor(output[1]["score"]) for output in pipe_outputs]`
in cell-13, where `pipe_outputs = sentiment_pipe(texts, **sent_kwargs)`
yields one labeled-score list per input text. -/
def computeRewards {α : Type} (pipe : String → List (LabelScore α))
    (texts : List String) : Option (List α) :=
  listMapOpt extractReward (texts.map pipe)

/-- Cell-15 reward extraction
`[output[1]["score"] for output in sentiment_pipe(texts, **sent_kwargs)]`,
used for both the before and the after columns. -/
def evalRewards {α : Type} (pipe : String → List (LabelScore α))
    (texts : List String) : Option (List α) :=
  listMapOpt extractReward (texts.map pipe)

/-- One iteration of the cell-13 loop up to the PPO step: the response
tensors, the scored texts, and the extracted rewards. -/
def processBatch {α : Type} (gen : List Nat → Nat → List Nat)
    (decode : List Nat → String) (pipe : String → List (LabelScore α))
    (lens : Nat → Nat) (b : BatchData) :
    List (List Nat) × List String × Option (List α) :=
  let responses := genResponsesFrom gen lens 0 b.input_ids
  let texts := buildTexts b.query (responses.map decode)
  (responses, texts, computeRewards pipe texts)

/-! ### Training-loop lemmas -/

theorem sliceLast_length {β : Type} (l : List β) (n : Nat) (h0 : n ≠ 0)
    (hn : n ≤ l.length) : (sliceLast l n).length = n := by
  simp only [sliceLast, if_neg h0, List.length_drop]
  omega

theorem genResponsesFrom_length (gen : List Nat → Nat → List Nat)
    (lens : Nat → Nat) :
    ∀ (qs : List (List Nat)) (s : Nat),
      (genResponsesFrom gen lens s qs).length = qs.length := by
  intro qs
  induction qs with
  | nil => intro s; rfl
  | cons q qs ih => intro s; simp [genResponsesFrom, ih]

theorem genResponsesFrom_get? (gen : List Nat → Nat → List Nat)
    (lens : Nat → Nat) :
    ∀ (qs : List (List Nat)) (s i : Nat),
      (genResponsesFrom gen lens s qs).get? i =
        (qs.get? i).map (fun q => sliceLast (gen q (lens (s + i))) (lens (s + i))) := by
  intro qs
  induction qs with
  | nil => intro s i; simp [genResponsesFrom]
  | cons q qs ih =>
    intro s i
    cases i with
    | zero => simp [genResponsesFrom]
    | succ j =>
      have hsj : s + (j + 1) = s + 1 + j := by omega
      rw [genResponsesFrom, List.get?_cons_succ, List.get?_cons_succ, hsj]
      exact ih (s + 1) j

theorem zip_get?_eq_some {β γ : Type} :
    ∀ (l1 : List β) (l2 : List γ) (i : Nat) (a : β) (b : γ),
      l1.get? i = some a → l2.get? i = some b →
      (l1.zip l2).get? i = some (a, b) := by
  intro l1
  induction l1 with
  | nil => intro l2 i a b h; simp at h
  | cons x xs ih =>
    intro l2 i a b h1 h2
    cases l2 with
    | nil => simp at h2
    | cons y ys =>
      cases i with
      | zero =>
        simp only [List.get?_cons_zero, Option.some.injEq] at h1 h2
        simp [List.zip_cons_cons, h1, h2]
      | succ j =>
        have h3 := ih ys j a b (by simpa using h1) (by simpa using h2)
        simpa [List.zip_cons_cons] using h3

theorem buildTexts_get? (queries responses : List String) (i : Nat)
    (q r : String) (hq : queries.get? i = some q)
    (hr : responses.get? i = some r) :
    (buildTexts queries responses).get? i = some (q ++ r) := by
  have hz := zip_get?_eq_some queries responses i q r hq hr
  rw [buildTexts, List.get?_map, hz]
  rfl

theorem buildTexts_length (queries responses : List String)
    (h : responses.length = queries.length) :
    (buildTexts queries responses).length = queries.length := by
  simp [buildTexts, List.length_zip, h]

theorem listMapOpt_length {β γ : Type} (f : β → Option γ) :
    ∀ (l : List β) (l2 : List γ), listMapOpt f l = some l2 →
      l2.length = l.length := by
  intro l
  induction l with
  | nil =>
    intro l2 h
    simp only [listMapOpt, Option.some.injEq] at h
    simp [← h]
  | cons b bs ih =>
    intro l2 h
    rw [listMapOpt] at h
    cases hfb : f b with
    | none => rw [hfb] at h; simp at h
    | some c =>
      rw [hfb] at h
      cases hrest : listMapOpt f bs with
      | none => rw [hrest] at h; simp at h
      | some cs =>
        rw [hrest] at h
        simp only [Option.some.injEq] at h
        have := ih cs hrest
        simp [← h, this]

/-! ### Claim C1, C2, C4 theorems -/

/-- C1: within one batch the generation, decoding and scoring phases keep
index alignment: as many responses as query prompts, as many rewards as
scored texts, the i-th scored text is the i-th prompt's decoded text
followed by the i-th response's decoded text, and the triplet
(query tensors, response tensors, rewards) handed to the PPO step is
index-aligned end-to-end. -/
theorem batch_alignment {α : Type} (gen : List Nat → Nat → List Nat)
    (decode : List Nat → String) (pipe : String → List (LabelScore α))
    (lens : Nat → Nat) (b : BatchData)
    (hqb : b.query.length = b.input_ids.length) (rewards : List α)
    (hr : (processBatch gen decode pipe lens b).2.2 = some rewards) :
    (processBatch gen decode pipe lens b).1.length = b.input_ids.length ∧
    (processBatch gen decode pipe lens b).2.1.length = b.input_ids.length ∧
    rewards.length = b.input_ids.length ∧
    ∀ i q r, b.query.get? i = some q →
      (processBatch gen decode pipe lens b).1.get? i = some r →
      (processBatch gen decode pipe lens b).2.1.get? i = some (q ++ decode r) := by
  have hR : (genResponsesFrom gen lens 0 b.input_ids).length = b.input_ids.length :=
    genResponsesFrom_length gen lens b.input_ids 0
  have hT : (buildTexts b.query ((genResponsesFrom gen lens 0 b.input_ids).map decode)).length
      = b.query.length := by
    apply buildTexts_length
    simp [hR, hqb]
  refine ⟨hR, ?_, ?_, ?_⟩
  · simpa [processBatch, hqb] using hT
  · simp only [processBatch, computeRewards] at hr
    have h1 := listMapOpt_length extractReward _ rewards hr
    rw [List.length_map] at h1
    rw [h1]
    rw [hT, hqb]
  · intro i q r hq hrsp
    simp only [processBatch] at hrsp ⊢
    apply buildTexts_get? _ _ _ _ _ hq
    rw [List.get?_map, hrsp]
    rfl

/-- Witness for C1: one example, generation via padding, a two-label
pipeline output. -/
theorem batch_alignment_witness :
    (processBatch (fun q n => q ++ List.replicate n 0) (fun _ => "r")
        (fun _ => [LabelScore.mk "NEGATIVE" (0 : Nat), LabelScore.mk "POSITIVE" 7])
        (fun _ => 4) (BatchData.mk [[1, 2]] ["q"])).1.length = 1 ∧
    (processBatch (fun q n => q ++ List.replicate n 0) (fun _ => "r")
        (fun _ => [LabelScore.mk "NEGATIVE" (0 : Nat), LabelScore.mk "POSITIVE" 7])
        (fun _ => 4) (BatchData.mk [[1, 2]] ["q"])).2.1.length = 1 ∧
    ([(7 : Nat)]).length = 1 ∧
    ∀ i q r, (["q"] : List String).get? i = some q →
      (processBatch (fun q n => q ++ List.replicate n 0) (fun _ => "r")
          (fun _ => [LabelScore.mk "NEGATIVE" (0 : Nat), LabelScore.mk "POSITIVE" 7])
          (fun _ => 4) (BatchData.mk [[1, 2]] ["q"])).1.get? i = some r →
      (processBatch (fun q n => q ++ List.replicate n 0) (fun _ => "r")
          (fun _ => [LabelScore.mk "NEGATIVE" (0 : Nat), LabelScore.mk "POSITIVE" 7])
          (fun _ => 4) (BatchData.mk [[1, 2]] ["q"])).2.1.get? i =
        some (q ++ "r") :=
  batch_alignment (fun q n => q ++ List.replicate n 0) (fun _ => "r")
    (fun _ => [LabelScore.mk "NEGATIVE" (0 : Nat), LabelScore.mk "POSITIVE" 7])
    (fun _ => 4) (BatchData.mk [[1, 2]] ["q"]) rfl [7] rfl

/-- C2: for every example, with L the drawn response length from the
configured range [4, 16), the trimmed response — the slice keeping the last
L elements of the generated output — has exactly L tokens, provided the
generated output carries at least L tokens (the generation cap
`max_new_tokens = L` makes the output the query followed by up to L fresh
tokens). -/
theorem response_trim_length (gen : List Nat → Nat → List Nat)
    (lens : Nat → Nat) (queries : List (List Nat)) (i : Nat) (q : List Nat)
    (hq : queries.get? i = some q) (hlo : 4 ≤ lens i) (hhi : lens i < 16)
    (hfill : lens i ≤ (gen q (lens i)).length) :
    (genResponses gen lens queries).get? i =
      some (sliceLast (gen q (lens i)) (lens i)) ∧
    (sliceLast (gen q (lens i)) (lens i)).length = lens i := by
  constructor
  · have h := genResponsesFrom_get? gen lens queries 0 i
    rw [genResponses, h, hq]
    simp
  · exact sliceLast_length _ _ (by omega) hfill

/-- Witness for C2: a two-token query, draw 4, generator filling the cap. -/
theorem response_trim_length_witness :
    (genResponses (fun q n => q ++ List.replicate n 0) (fun _ => 4)
        [[1, 2]]).get? 0 =
      some (sliceLast ([1, 2] ++ List.replicate 4 0) 4) ∧
    (sliceLast ([1, 2] ++ List.replicate 4 0) 4).length = 4 :=
  response_trim_length (fun q n => q ++ List.replicate n 0) (fun _ => 4)
    [[1, 2]] 0 [1, 2] rfl (by decide) (by decide) (by decide)

/-- C4: for every per-example reward-model output with at least two labeled
scores, the scalar extracted — in the cell-13 training loop and in the
cell-15 evaluation harness alike — is the score field of the element at the
fixed index 1 (the positive-class position), never any other index. -/
theorem reward_extraction_index_one {α : Type}
    (pipe : String → List (LabelScore α)) (t : String)
    (s0 s1 : LabelScore α) (rest : List (LabelScore α))
    (hpipe : pipe t = s0 :: s1 :: rest) :
    extractReward (pipe t) = some s1.score ∧
    computeRewards pipe [t] = some [s1.score] ∧
    evalRewards pipe [t] = some [s1.score] := by
  have h1 : extractReward (pipe t) = some s1.score := by rw [hpipe]; rfl
  refine ⟨h1, ?_, ?_⟩ <;>
    simp [computeRewards, evalRewards, listMapOpt, h1]

/-- Witness for C4: a two-label output; the positive score 7 at index 1 is
the one extracted. -/
theorem reward_extraction_index_one_witness :
    extractReward [LabelScore.mk "NEGATIVE" (0 : Nat), LabelScore.mk "POSITIVE" 7] =
      some 7 ∧
    computeRewards
        (fun _ => [LabelScore.mk "NEGATIVE" (0 : Nat), LabelScore.mk "POSITIVE" 7])
        ["txt"] = some [7] ∧
    evalRewards
        (fun _ => [LabelScore.mk "NEGATIVE" (0 : Nat), LabelScore.mk "POSITIVE" 7])
        ["txt"] = some [7] :=
  reward_extraction_index_one
    (fun _ => [LabelScore.mk "NEGATIVE" (0 : Nat), LabelScore.mk "POSITIVE" 7])
    "txt" (LabelScore.mk "NEGATIVE" 0) (LabelScore.mk "POSITIVE" 7) [] rfl

/-! ## Exception-aware model of one cell-13 iteration (claim C8)

Exceptions raised inside the external calls are modelled with `Except`:
the loop body has no try/except, so the first raise aborts the whole
iteration. -/

/-- The cell-13 generation loop when `ppo_trainer.generate` may raise
(e.g. CUDA out-of-memory): the first raise aborts the loop. -/
def genResponsesFromE (gen : List Nat → Nat → Except String (List Nat))
    (lens : Nat → Nat) :
    Nat → List (List Nat) → Except String (List (List Nat))
  | _, [] => .ok []
  | i, q :: qs =>
    match gen q (lens i) with
    | .error e => .error e
    | .ok out =>
      match genResponsesFromE gen lens (i + 1) qs with
      | .error e => .error e
      | .ok rest => .ok (sliceLast out (lens i) :: rest)

/-- One full cell-13 iteration with raisable externals: generation, then
scoring (`sentiment_pipe` over the batch of texts may raise, and
`output[1]` raises an IndexError on an output with fewer than two entries),
then — only on success — `ppo_trainer.step(query_tensors, response_tensors,
rewards)`. -/
def ppoBatchStep {α σ : Type} (gen : List Nat → Nat → Except String (List Nat))
    (decode : List Nat → String)
    (pipe : List String → Except String (List (List (LabelScore α))))
    (lens : Nat → Nat)
    (step : List (List Nat) → List (List Nat) → List α → σ)
    (b : BatchData) : Except String σ :=
  match genResponsesFromE gen lens 0 b.input_ids with
  | .error e => .error e
  | .ok responses =>
    match pipe (buildTexts b.query (responses.map decode)) with
    | .error e => .error e
    | .ok outputs =>
      match listMapOpt extractReward outputs with
      | none => .error "IndexError"
      | some rewards => .ok (step b.input_ids responses rewards)

theorem genResponsesFromE_error (gen : List Nat → Nat → Except String (List Nat))
    (lens : Nat → Nat) :
    ∀ (qs : List (List Nat)) (s i : Nat) (q : List Nat) (e : String),
      qs.get? i = some q → gen q (lens (s + i)) = .error e →
      ∃ e2, genResponsesFromE gen lens s qs = .error e2 := by
  intro qs
  induction qs with
  | nil => intro s i q e hq; simp at hq
  | cons x xs ih =>
    intro s i q e hq hgen
    cases i with
    | zero =>
      simp only [List.get?_cons_zero, Option.some.injEq] at hq
      subst hq
      rw [Nat.add_zero] at hgen
      refine ⟨e, ?_⟩
      simp [genResponsesFromE, hgen]
    | succ j =>
      have hq2 : xs.get? j = some q := by simpa using hq
      have hgen2 : gen q (lens (s + 1 + j)) = .error e := by
        have hsj : s + 1 + j = s + (j + 1) := by omega
        rw [hsj]; exact hgen
      obtain ⟨e2, he2⟩ := ih (s + 1) j q e hq2 hgen2
      cases hx : gen x (lens s) with
      | error e3 =>
        refine ⟨e3, ?_⟩
        simp [genResponsesFromE, hx]
      | ok out =>
        refine ⟨e2, ?_⟩
        simp [genResponsesFromE, hx, he2]

/-- C8: if generation or reward scoring raises for a batch, the exception
propagates uncaught and the PPO step is not invoked for that batch: the
iteration's result is the same error for every possible step function, so
no policy update can arise from a partially processed batch. -/
theorem step_not_run_on_failure {α : Type}
    (gen : List Nat → Nat → Except String (List Nat))
    (decode : List Nat → String)
    (pipe : List String → Except String (List (List (LabelScore α))))
    (lens : Nat → Nat) (b : BatchData)
    (hfail : (∃ i q e0, b.input_ids.get? i = some q ∧ gen q (lens i) = .error e0) ∨
      ∃ rs, genResponsesFromE gen lens 0 b.input_ids = .ok rs ∧
        ∃ e0, pipe (buildTexts b.query (rs.map decode)) = .error e0) :
    ∃ e, ∀ (σ : Type) (step : List (List Nat) → List (List Nat) → List α → σ),
      ppoBatchStep gen decode pipe lens step b = .error e := by
  rcases hfail with ⟨i, q, e0, hq, hgen⟩ | ⟨rs, hok, e0, hpipe⟩
  · have hgen2 : gen q (lens (0 + i)) = .error e0 := by
      rw [Nat.zero_add]; exact hgen
    obtain ⟨e2, he2⟩ := genResponsesFromE_error gen lens b.input_ids 0 i q e0 hq hgen2
    refine ⟨e2, ?_⟩
    intro σ step
    simp [ppoBatchStep, he2]
  · refine ⟨e0, ?_⟩
    intro σ step
    simp [ppoBatchStep, hok, hpipe]

/-- Witness for C8: generation raises on the only query; the batch step
fails identically for every step function. -/
theorem step_not_run_on_failure_witness :
    ∃ e, ∀ (σ : Type) (step : List (List Nat) → List (List Nat) → List Nat → σ),
      ppoBatchStep (fun _ _ => .error "oom") (fun _ => "")
        (fun _ => .ok ([] : List (List (LabelScore Nat)))) (fun _ => 4) step
        (BatchData.mk [[1]] ["q"]) = .error e :=
  step_not_run_on_failure (fun _ _ => .error "oom") (fun _ => "")
    (fun _ => .ok ([] : List (List (LabelScore Nat)))) (fun _ => 4)
    (BatchData.mk [[1]] ["q"]) (Or.inl ⟨0, [1], "oom", rfl, rfl⟩)

/-! ## Evaluation harness (cell-15) -/

/-- The cell-15 generation loop from iteration `i`: one draw
`gen_len = output_length_sampler()` per iteration, used as
`max_new_tokens` and as the trim `[-gen_len:]` both for `ref_model` (first
component) and for `model` (second component). -/
def evalGenFrom (refGen polGen : List Nat → Nat → List Nat)
    (lens : Nat → Nat) :
    Nat → List (List Nat) → List (List Nat) × List (List Nat)
  | _, [] => ([], [])
  | i, q :: qs =>
    let rest := evalGenFrom refGen polGen lens (i + 1) qs
    (sliceLast (refGen q (lens i)) (lens i) :: rest.1,
     sliceLast (polGen q (lens i)) (lens i) :: rest.2)

/-- `response_tensors_ref` and `response_tensors` of cell-15. -/
def evalGenerate (refGen polGen : List Nat → Nat → List Nat)
    (lens : Nat → Nat) (queryTensors : List (List Nat)) :
    List (List Nat) × List (List Nat) :=
  evalGenFrom refGen polGen lens 0 queryTensors

theorem evalGenFrom_get? (refGen polGen : List Nat → Nat → List Nat)
    (lens : Nat → Nat) :
    ∀ (qs : List (List Nat)) (s i : Nat),
      (evalGenFrom refGen polGen lens s qs).1.get? i =
        (qs.get? i).map
          (fun q => sliceLast (refGen q (lens (s + i))) (lens (s + i))) ∧
      (evalGenFrom refGen polGen lens s qs).2.get? i =
        (qs.get? i).map
          (fun q => sliceLast (polGen q (lens (s + i))) (lens (s + i))) := by
  intro qs
  induction qs with
  | nil => intro s i; simp [evalGenFrom]
  | cons q qs ih =>
    intro s i
    cases i with
    | zero => simp [evalGenFrom]
    | succ j =>
      have hsj : s + (j + 1) = s + 1 + j := by omega
      constructor
      · rw [evalGenFrom, List.get?_cons_succ, List.get?_cons_succ, hsj]
        exact (ih (s + 1) j).1
      · rw [evalGenFrom, List.get?_cons_succ, List.get?_cons_succ, hsj]
        exact (ih (s + 1) j).2

/-! ### Claim C7, C10 theorems -/

/-- C7: in the evaluation harness, for every sampled example, the before
scored text and the after scored text are built from the identical prompt
(the i-th query), concatenated prompt first, so the two scored lists differ
only in their response suffixes. -/
theorem eval_texts_same_query (queries respBefore respAfter : List String)
    (i : Nat) (q rb ra : String) (hq : queries.get? i = some q)
    (hb : respBefore.get? i = some rb) (ha : respAfter.get? i = some ra) :
    (buildTexts queries respBefore).get? i = some (q ++ rb) ∧
    (buildTexts queries respAfter).get? i = some (q ++ ra) :=
  ⟨buildTexts_get? queries respBefore i q rb hq hb,
   buildTexts_get? queries respAfter i q ra hq ha⟩

/-- Witness for C7: one query with distinct before and after responses. -/
theorem eval_texts_same_query_witness :
    (buildTexts ["q"] ["b"]).get? 0 = some ("q" ++ "b") ∧
    (buildTexts ["q"] ["a"]).get? 0 = some ("q" ++ "a") :=
  eval_texts_same_query ["q"] ["b"] ["a"] 0 "q" "b" "a" rfl rfl rfl

/-- C10: in the evaluation harness the response length is drawn once per
example and the same draw is the generation cap and the trim length for
both the reference-model response and the policy-model response, so the
paired before/after responses of one example have equal token counts
(both exactly the drawn length, provided each generated output carries at
least that many tokens). -/
theorem eval_paired_lengths (refGen polGen : List Nat → Nat → List Nat)
    (lens : Nat → Nat) (queryTensors : List (List Nat)) (i : Nat)
    (q : List Nat) (hq : queryTensors.get? i = some q)
    (hlo : 4 ≤ lens i) (hhi : lens i < 16)
    (href : lens i ≤ (refGen q (lens i)).length)
    (hpol : lens i ≤ (polGen q (lens i)).length) :
    ∃ rb ra,
      (evalGenerate refGen polGen lens queryTensors).1.get? i = some rb ∧
      (evalGenerate refGen polGen lens queryTensors).2.get? i = some ra ∧
      rb.length = lens i ∧ ra.length = lens i ∧ rb.length = ra.length := by
  have h := evalGenFrom_get? refGen polGen lens queryTensors 0 i
  refine ⟨sliceLast (refGen q (lens i)) (lens i),
    sliceLast (polGen q (lens i)) (lens i), ?_, ?_, ?_, ?_, ?_⟩
  · rw [evalGenerate, h.1, hq]; simp
  · rw [evalGenerate, h.2, hq]; simp
  · exact sliceLast_length _ _ (by omega) href
  · exact sliceLast_length _ _ (by omega) hpol
  · rw [sliceLast_length _ _ (by omega) href, sliceLast_length _ _ (by omega) hpol]

/-- Witness for C10: one query, draw 5, both models filling the cap. -/
theorem eval_paired_lengths_witness :
    ∃ rb ra,
      (evalGenerate (fun q n => q ++ List.replicate n 0)
          (fun q n => q ++ List.replicate n 1) (fun _ => 5) [[9]]).1.get? 0 =
        some rb ∧
      (evalGenerate (fun q n => q ++ List.replicate n 0)
          (fun q n => q ++ List.replicate n 1) (fun _ => 5) [[9]]).2.get? 0 =
        some ra ∧
      rb.length = 5 ∧ ra.length = 5 ∧ rb.length = ra.length :=
  eval_paired_lengths (fun q n => q ++ List.replicate n 0)
    (fun q n => q ++ List.replicate n 1) (fun _ => 5) [[9]] 0 [9] rfl
    (by decide) (by decide) (by decide) (by decide)

/-! ### Claim C3, C6, C9 theorems -/

/-- C3: for every non-empty list of records in which each record contains
every key of the first record, the collator returns a mapping whose keys are
exactly those of the first record, each key mapped to that field's values
taken from the records in input order, every list having length the number
of input records, with no value filtered or transformed. -/
theorem collator_uniform_schema {V : Type} (d0 : List (String × V))
    (tl : List (List (String × V))) (val : List (String × V) → String → V)
    (H : ∀ d ∈ d0 :: tl, ∀ k ∈ d0.map Prod.fst, getKey d k = some (val d k)) :
    collator (d0 :: tl) =
      some ((d0.map Prod.fst).map (fun k => (k, (d0 :: tl).map (fun d => val d k)))) ∧
    ((d0.map Prod.fst).map
        (fun k => (k, (d0 :: tl).map (fun d => val d k)))).map Prod.fst =
      d0.map Prod.fst ∧
    ∀ p ∈ (d0.map Prod.fst).map (fun k => (k, (d0 :: tl).map (fun d => val d k))),
      p.2.length = (d0 :: tl).length := by
  refine ⟨?_, by simp, ?_⟩
  · have h1 : ∀ k ∈ d0.map Prod.fst,
        collectKey (d0 :: tl) k = some ((d0 :: tl).map (fun d => val d k)) := by
      intro k hk
      exact collectKey_eq_some k val (d0 :: tl) (fun d hd => H d hd k hk)
    have h2 := collectFields_eq_some (d0 :: tl)
      (fun k => (d0 :: tl).map (fun d => val d k)) (d0.map Prod.fst) h1
    simpa [collator] using h2
  · intro p hp
    rcases List.mem_map.1 hp with ⟨k, _, hk⟩
    subst hk
    simp

/-- Witness for C3: two aligned records over keys a, b. -/
theorem collator_uniform_schema_witness :
    collator [[("a", (1 : Nat)), ("b", 2)], [("a", 3), ("b", 4)]] =
      some [("a", [1, 3]), ("b", [2, 4])] := by
  have h := collator_uniform_schema [("a", (1 : Nat)), ("b", 2)] [[("a", 3), ("b", 4)]]
    (fun d k => (getKey d k).getD 0) (by decide)
  exact h.1.trans (by decide)

/-- C6: if some record in the input is missing a key present in the first
record, the collator fails (a KeyError propagates) rather than producing a
batch. -/
theorem collator_missing_key {V : Type} (d0 : List (String × V))
    (tl : List (List (String × V))) (k : String) (hk : k ∈ d0.map Prod.fst)
    (d : List (String × V)) (hd : d ∈ d0 :: tl) (hmiss : getKey d k = none) :
    collator (d0 :: tl) = none := by
  have h1 : collectKey (d0 :: tl) k = none := collectKey_eq_none k (d0 :: tl) d hd hmiss
  have h2 : collectFields (d0 :: tl) (d0.map Prod.fst) = none :=
    collectFields_eq_none (d0 :: tl) (d0.map Prod.fst) k hk h1
  simpa [collator] using h2

/-- Witness for C6: the second record lacks key b of the first record. -/
theorem collator_missing_key_witness :
    collator [[("a", (1 : Nat)), ("b", 2)], [("a", 3)]] = none :=
  collator_missing_key [("a", (1 : Nat)), ("b", 2)] [[("a", 3)]] "b" (by decide)
    [("a", 3)] (by decide) (by decide)

/-- C9: on the empty input list the collator fails (indexing `data[0]`
raises) and never returns a batch. -/
theorem collator_empty_input (V : Type) :
    collator ([] : List (List (String × V))) = none := rfl

/-! ### Claim C5 theorems -/

/-- A corpus text whose raw length is exactly the threshold 200. -/
def text200 : String := String.mk (List.replicate 200 'x')

theorem text200_length : text200.length = 200 := by
  rw [text200, String.length, List.length_replicate]

/-- C5 counterexample: a corpus text of raw length exactly 200 is excluded
by the filter even though its length is not below the threshold, so
"excluded if and only if the raw length is below the threshold" fails. -/
theorem filter_boundary_counterexample :
    build_dataset_filter [text200] = [] ∧ ¬ text200.length < 200 := by
  refine ⟨?_, by rw [text200_length]; omega⟩
  rw [build_dataset_filter, List.filter_cons]
  simp [text200_length]

/-- C5 amended: a corpus text is kept by the filter iff its raw length
exceeds 200, hence excluded iff its raw length is at most 200; every text of
the built dataset has raw length exceeding the threshold. -/
theorem build_dataset_filter_spec (corpus : List String) (t : String)
    (ht : t ∈ corpus) :
    (t ∈ build_dataset_filter corpus ↔ 200 < t.length) ∧
    (t ∉ build_dataset_filter corpus ↔ t.length ≤ 200) ∧
    ∀ s ∈ build_dataset_filter corpus, 200 < s.length := by
  refine ⟨?_, ?_, ?_⟩
  · simp [build_dataset_filter, List.mem_filter, ht]
  · simp [build_dataset_filter, List.mem_filter, ht]
  · intro s hs
    have := (List.mem_filter.1 hs).2
    simpa using this

/-- Witness for C5 amended: a two-character text is excluded. -/
theorem build_dataset_filter_spec_witness :
    ("ab" ∈ build_dataset_filter ["ab"] ↔ 200 < "ab".length) ∧
    ("ab" ∉ build_dataset_filter ["ab"] ↔ "ab".length ≤ 200) ∧
    ∀ s ∈ build_dataset_filter ["ab"], 200 < s.length :=
  build_dataset_filter_spec ["ab"] "ab" (by decide)

end RLHF
